import Mathlib

/-!
Shallow embedding of the `shortcut` task-processing daemon (Go), covering:
the task data model and identity generator (`daemon.NewTaskID`), the bounded
task queue (`make(chan *Task, queueSize)` with non-blocking send), the
admission handler (`webapi.Handler.SubmitTask`), the worker execution and
outcome classification (`Daemon.worker` / `Daemon.processingWithTimeout`),
the shutdown sequence (`Daemon.Stop`), the persistent not-processed store
(`database.Service` / `clickhouse.Service`), and the context tree built by
`Daemon.Start`. The embedding follows the `internal/daemon` variant wired by
`main.go` (the one with a `PersistentQueue` collaborator).
-/

namespace Shortcut

/-- `type Task struct { ID string }`. -/
structure Task where
  ID : String
deriving DecidableEq, Repr

/-! ## Persistent not-processed store

`database.Service` / `clickhouse.Service`: a mutex-protected
`storage map[string]struct{}`. We model the map as its list of keys in
insertion order; inserting a present key leaves the map unchanged. -/

/-- The in-memory store behind `AddNotProcessedTask` / `GetAllNotProcessedTasks`:
`storage map[string]struct{}`, modelled by its key list. -/
structure Store where
  storage : List String
deriving DecidableEq, Repr

/-- `make(map[string]struct{})` in `database.New` / `clickhouse.NewService`. -/
def Store.empty : Store := ⟨[]⟩

/-- `Service.AddNotProcessedTask`: `s.storage[taskID] = struct{}{}` — a map
insert, which is a no-op when the key is already present. -/
def AddNotProcessedTask (s : Store) (taskID : String) : Store :=
  if taskID ∈ s.storage then s else ⟨s.storage ++ [taskID]⟩

/-- `Service.GetAllNotProcessedTasks`: iterate the map keys into a slice. -/
def GetAllNotProcessedTasks (s : Store) : List String :=
  s.storage

/-! ## Bounded task queue

`TaskQueue: make(chan *Task, queueSize)` — a buffered channel of fixed
capacity, modelled as a FIFO list bounded by the capacity. -/

/-- The buffered channel `d.TaskQueue` (capacity fixed at `daemon.New`). -/
structure TaskQueue where
  capacity : Nat
  buffer : List Task
deriving DecidableEq, Repr

/-- `make(chan *Task, queueSize)` in `daemon.New`. -/
def TaskQueue.new (queueSize : Nat) : TaskQueue :=
  ⟨queueSize, []⟩

/-- Non-blocking send, `select { case q <- task: ... default: ... }`:
succeeds exactly when the buffer is below capacity, otherwise reports
failure immediately (the `default` branch). -/
def TaskQueue.trySend (q : TaskQueue) (t : Task) : Option TaskQueue :=
  if q.buffer.length < q.capacity then some ⟨q.capacity, q.buffer ++ [t]⟩ else none

/-- A worker receive `task := <-d.TaskQueue`: takes the oldest buffered task. -/
def TaskQueue.receive (q : TaskQueue) : Option (Task × TaskQueue) :=
  match q.buffer with
  | [] => none
  | t :: rest => some (t, ⟨q.capacity, rest⟩)

/-! ## Metrics recorder

`metrics.Recorder`: the counters and gauges the daemon and the admission
handler touch. `statusCounter` is label-indexed; the program only uses the
labels for accepted responses (`IncHTTPResponseStatus(202)`), unavailable
responses (`IncHTTPResponseStatus(503)`) and successfully submitted tasks
(`IncSubmittedTasksTotal`), so each used label is one field. -/

/-- The metrics state touched by the daemon and the admission handler. -/
structure Recorder where
  submittedTasksTotal : Nat
  acceptedTotal : Nat
  unavailableTotal : Nat
  taskErrorsTotal : Nat
  timeoutsTotal : Nat
  activeTasks : Int
  taskDurationObservations : Nat
deriving DecidableEq, Repr

/-- A freshly registered recorder: all counters and gauges start at zero. -/
def Recorder.init : Recorder :=
  ⟨0, 0, 0, 0, 0, 0, 0⟩

/-- `Recorder.IncSubmittedTasksTotal` (success counter). -/
def Recorder.IncSubmittedTasksTotal (r : Recorder) : Recorder :=
  { r with submittedTasksTotal := r.submittedTasksTotal + 1 }

/-- `Recorder.IncTaskError` (`errorCounter["error"]`). -/
def Recorder.IncTaskError (r : Recorder) : Recorder :=
  { r with taskErrorsTotal := r.taskErrorsTotal + 1 }

/-- `Recorder.IncTaskTimeout` (`errorCounter["timeout"]`). -/
def Recorder.IncTaskTimeout (r : Recorder) : Recorder :=
  { r with timeoutsTotal := r.timeoutsTotal + 1 }

/-- `Recorder.AddActiveTasks(n)` on the active-task gauge. -/
def Recorder.AddActiveTasks (r : Recorder) (n : Int) : Recorder :=
  { r with activeTasks := r.activeTasks + n }

/-- `Recorder.DecActiveTasks(n)` on the active-task gauge. -/
def Recorder.DecActiveTasks (r : Recorder) (n : Int) : Recorder :=
  { r with activeTasks := r.activeTasks - n }

/-- `Recorder.ObserveTaskDuration`: one sample into the duration histogram;
we track the number of observations. -/
def Recorder.ObserveTaskDuration (r : Recorder) : Recorder :=
  { r with taskDurationObservations := r.taskDurationObservations + 1 }

/-- `Recorder.IncHTTPResponseStatus(statusCode)`: bump the status-labelled
counter; the handler only ever passes 202 and 503. -/
def Recorder.IncHTTPResponseStatus (r : Recorder) (statusCode : Nat) : Recorder :=
  if statusCode = 202 then { r with acceptedTotal := r.acceptedTotal + 1 }
  else if statusCode = 503 then { r with unavailableTotal := r.unavailableTotal + 1 }
  else r

/-! ## Task identity generation

`Daemon.NewTaskID`: `nextID := atomic.AddUint64(&d.taskCounter, 1);
return fmt.Sprintf("task-%d", nextID)`. The counter is a `uint64`, so the
increment wraps modulo `2^64`; `%d` renders the decimal representation. -/

/-- `fmt.Sprintf("task-%d", n)`. -/
def taskIDString (n : Nat) : String :=
  "task-" ++ Nat.repr n

/-- `Daemon.NewTaskID`: atomically increment the `uint64` counter (wrapping
modulo `2^64`) and format the new value; returns the ID and the new counter. -/
def NewTaskID (taskCounter : Nat) : String × Nat :=
  let nextID := (taskCounter + 1) % 2 ^ 64
  (taskIDString nextID, nextID)

/-- Counter value after `n` calls to `NewTaskID` starting from the zero-value
daemon (`taskCounter = 0`). -/
def counterAfterCalls : Nat → Nat
  | 0 => 0
  | n + 1 => (counterAfterCalls n + 1) % 2 ^ 64

/-- Identifier returned by call number `n + 1` (0-based index `n`). -/
def callTaskID (n : Nat) : String :=
  (NewTaskID (counterAfterCalls n)).1

/-! ## Admission handler

`webapi.Handler.SubmitTask`: reject while shutting down (without touching
the task counter or metrics), otherwise allocate an ID and attempt exactly
one non-blocking enqueue. -/

/-- The two responses `SubmitTask` can produce: `http.StatusAccepted` (202)
or `http.StatusServiceUnavailable` (503). -/
inductive SubmitResponse where
  | accepted
  | unavailable
deriving DecidableEq, Repr

/-- The state `SubmitTask` reads and writes: the `isShuttingDown` flag, the
daemon's task counter, the task queue and the metrics recorder. -/
structure HandlerState where
  isShuttingDown : Bool
  taskCounter : Nat
  queue : TaskQueue
  recorder : Recorder
deriving DecidableEq, Repr

/-- Initial state: flag unset, zero-value counter, empty queue of capacity
`queueSize`, fresh recorder (`daemon.New` + `metrics.NewRecorder`). -/
def initState (queueSize : Nat) : HandlerState :=
  ⟨false, 0, TaskQueue.new queueSize, Recorder.init⟩

/-- `Handler.SubmitTask`:
if `isShuttingDown.Load()` respond 503 and return at once (nothing else is
touched); otherwise allocate `Task{ID: d.NewTaskID()}` and run the
non-blocking `select` send: on success record a 202, on a full queue record
a 503 and discard the task. -/
def SubmitTask (s : HandlerState) : SubmitResponse × HandlerState :=
  if s.isShuttingDown then
    (.unavailable, s)
  else
    let idAndCounter := NewTaskID s.taskCounter
    let s1 : HandlerState := { s with taskCounter := idAndCounter.2 }
    match s1.queue.trySend ⟨idAndCounter.1⟩ with
    | some q' =>
        (.accepted, { s1 with queue := q', recorder := s1.recorder.IncHTTPResponseStatus 202 })
    | none =>
        (.unavailable, { s1 with recorder := s1.recorder.IncHTTPResponseStatus 503 })

/-- Responses of `n` consecutive `SubmitTask` requests from state `s`. -/
def submitResponses (s : HandlerState) : Nat → List SubmitResponse
  | 0 => []
  | n + 1 =>
    let rs := SubmitTask s
    rs.1 :: submitResponses rs.2 n

/-- Events interleaving admission attempts with worker dequeues. -/
inductive QueueOp where
  | submit
  | dequeue
deriving DecidableEq, Repr

/-- One step of the system as seen by the queue: an admission attempt runs
`SubmitTask`; a worker dequeue runs `<-d.TaskQueue` when a task is buffered. -/
def stepOp (s : HandlerState) (op : QueueOp) : HandlerState :=
  match op with
  | .submit => (SubmitTask s).2
  | .dequeue =>
    match s.queue.receive with
    | some tq => { s with queue := tq.2 }
    | none => s

/-! ## Worker execution and outcome classification

`Daemon.worker` / `Daemon.processingWithTimeout`: the External Capability
call `apiCaller.GetSomething(ctx, task.ID, workerID)` returns `nil`, a
`*extapi.CustomError`, or the context error (`context.DeadlineExceeded` /
`context.Canceled`); these are the only results the capability produces. -/

/-- Result of one `GetSomething` invocation. -/
inductive APIResult where
  | success
  | customError (msg : String)
  | deadlineExceeded
  | canceled
deriving DecidableEq, Repr

/-- `errors.As(err, &customErr)` for `*extapi.CustomError`. -/
def APIResult.isCustomError : APIResult → Bool
  | .customError _ => true
  | _ => false

/-- `errors.Is(err, context.DeadlineExceeded)`. -/
def APIResult.isDeadlineExceeded : APIResult → Bool
  | .deadlineExceeded => true
  | _ => false

/-- `errors.Is(err, context.Canceled)`. -/
def APIResult.isCanceled : APIResult → Bool
  | .canceled => true
  | _ => false

/-- `err != nil` for the capability result. -/
def APIResult.isError : APIResult → Bool
  | .success => false
  | _ => true

/-- The result-classification goroutine body inside `processingWithTimeout`:
on error, bump the task-error counter when the error is a `CustomError` and
the timeout counter when it is `DeadlineExceeded` or `Canceled`; on success,
bump the submitted counter. -/
def recordAPIResult (r : Recorder) (res : APIResult) : Recorder :=
  if res.isError then
    let r1 := if res.isCustomError then r.IncTaskError else r
    if res.isDeadlineExceeded || res.isCanceled then r1.IncTaskTimeout else r1
  else
    r.IncSubmittedTasksTotal

/-- `Daemon.processingWithTimeout` as a recorder transformer: classify the
capability result, then run the deferred block — one duration observation
and one decrement of the active-task gauge — on every exit path. -/
def processingWithTimeout (r : Recorder) (res : APIResult) : Recorder :=
  ((recordAPIResult r res).ObserveTaskDuration).DecActiveTasks 1

/-- The `Daemon.worker` handling of one dequeued task: increment the
active-task gauge, then run `processingWithTimeout`. -/
def workerHandleTask (r : Recorder) (res : APIResult) : Recorder :=
  processingWithTimeout (r.AddActiveTasks 1) res

/-- Queue-plus-recorder state a worker step acts on. -/
structure DaemonState where
  queue : TaskQueue
  recorder : Recorder
deriving DecidableEq, Repr

/-- One worker loop iteration that receives a task: dequeue the oldest
buffered task and process it; `resultOf` gives the capability's result for
the task. Returns `none` when the queue is empty (the worker would block). -/
def workerStep (s : DaemonState) (resultOf : Task → APIResult) : Option DaemonState :=
  match s.queue.receive with
  | none => none
  | some tq => some ⟨tq.2, workerHandleTask s.recorder (resultOf tq.1)⟩

/-! ## Context tree

The `context` package builds a tree: `context.WithCancel(parent)` and
`context.WithTimeout(parent, d)` derive children; cancelling a context
fires `Done` for it and all of its descendants. `Daemon.Start` stores its
argument as `d.baseCtx` and derives the workers' loop context from it with
`WithCancel` (cancelled by `Daemon.Stop` via `d.workerCancel`); the worker
then calls `d.processingWithTimeout(d.baseCtx, ...)`, which derives the
per-task deadline context with `WithTimeout(ctx, 3*time.Second)`. -/

/-- A node of the context tree (ids keep sibling derivations distinct). -/
inductive Ctx where
  | background : Ctx
  | withCancel : Ctx → Nat → Ctx
  | withTimeout : Ctx → Nat → Nat → Ctx
deriving DecidableEq, Repr

/-- The chain of a context and all its ancestors up to the root. -/
def Ctx.selfAndAncestors : Ctx → List Ctx
  | .background => [.background]
  | .withCancel p i => .withCancel p i :: p.selfAndAncestors
  | .withTimeout p d i => .withTimeout p d i :: p.selfAndAncestors

/-- `c` is a descendant of `a` (or `a` itself): cancelling `a` fires the
`Done` signal of `c`. -/
def Ctx.isDescendantOf (c a : Ctx) : Bool :=
  a ∈ c.selfAndAncestors

/-- The workers' loop context created in `Daemon.Start`:
`ctx, d.workerCancel = context.WithCancel(ctx)` — this is the context
`Daemon.Stop` cancels. -/
def startWorkerCtx (baseCtx : Ctx) : Ctx :=
  .withCancel baseCtx 0

/-- The per-task deadline context created in `Daemon.processingWithTimeout`:
`ctx, cancel := context.WithTimeout(ctx, 3*time.Second)` where the `ctx`
argument is `d.baseCtx` (the worker calls
`d.processingWithTimeout(d.baseCtx, apiCaller, workerID, task)`). -/
def taskDeadlineCtx (baseCtx : Ctx) (taskIdx : Nat) : Ctx :=
  .withTimeout baseCtx 3000 taskIdx

/-! ## Shutdown sequence

`Daemon.Stop`: cancel the workers' context, close the queue, drain the
remaining buffered tasks into the persistent store, wait on the
`WaitGroup` with a hard bound (`time.After`), logging a forced exit when
the bound elapses first, then emit the final accounting
(`logFinalMetrics`). Modelled as the ordered trace of effects plus the
resulting store. -/

/-- `Daemon.moveNotProcessedTasksToPersistentQueue`: range over the closed
queue's remaining buffer, forwarding each task's ID to the store. -/
def moveNotProcessedTasksToPersistentQueue (buffer : List Task) (st : Store) : Store :=
  buffer.foldl (fun s t => AddNotProcessedTask s t.ID) st

/-- The `AddNotProcessedTask` calls the drain loop issues, in order. -/
def drainCalls (buffer : List Task) : List String :=
  buffer.map Task.ID

/-- One observable effect of `Daemon.Stop`, in program order. -/
inductive StopEvent where
  | cancelWorkers
  | closeQueue
  | persistTask (taskID : String)
  | waitJoinedInTime
  | forceExitLog
  | finalAccounting
deriving DecidableEq, Repr

/-- Outcome of `Daemon.Stop`: its ordered effect trace and the store. -/
structure StopResult where
  events : List StopEvent
  store : Store
deriving DecidableEq, Repr

/-- `Daemon.Stop`, given the tasks still buffered at shutdown, the store
contents, and whether `d.Wg.Wait()` finished before the join bound:
`d.workerCancel()`; `close(d.TaskQueue)`;
`d.moveNotProcessedTasksToPersistentQueue()`; the bounded `select` on
`doneCh` vs `time.After` (logging "force exit after timeout" when the bound
elapses); then the final accounting logs. In-flight tasks are only waited
on — nothing about them is written to the store. -/
def DaemonStop (buffer : List Task) (st : Store) (joinWithinBound : Bool) : StopResult :=
  { events :=
      [.cancelWorkers, .closeQueue]
        ++ buffer.map (fun t => .persistTask t.ID)
        ++ [if joinWithinBound then .waitJoinedInTime else .forceExitLog]
        ++ [.finalAccounting],
    store := moveNotProcessedTasksToPersistentQueue buffer st }

/-! ## Decimal rendering

`fmt.Sprintf("%d", n)` produces the decimal representation of `n`, which
the embedding writes as `Nat.repr`. The following development shows that
`Nat.repr` is injective, so distinct counter values yield distinct task
identifiers. -/

/-- Numeric value of a decimal digit character (left inverse of
`Nat.digitChar` on digits below 10). -/
def digitVal (c : Char) : Nat :=
  if c = '0' then 0 else if c = '1' then 1 else if c = '2' then 2
  else if c = '3' then 3 else if c = '4' then 4 else if c = '5' then 5
  else if c = '6' then 6 else if c = '7' then 7 else if c = '8' then 8
  else if c = '9' then 9 else 0

/-- Read a most-significant-first decimal digit list back into a number. -/
def decodeDigits (l : List Char) : Nat :=
  l.foldl (fun a c => 10 * a + digitVal c) 0

/-- Most-significant-first decimal digit list of `n`, by structural
recursion on the quotient (same digits as `Nat.toDigits 10 n`). -/
def decDigits (n : Nat) : List Char :=
  if h : n / 10 = 0 then [Nat.digitChar (n % 10)]
  else decDigits (n / 10) ++ [Nat.digitChar (n % 10)]
decreasing_by
  exact Nat.div_lt_self (by omega) (by omega)

theorem digitVal_digitChar : ∀ d : Nat, d < 10 → digitVal (Nat.digitChar d) = d := by
  decide

theorem toDigitsCore_eq_decDigits (fuel : Nat) :
    ∀ (n : Nat) (ds : List Char), n < fuel →
      Nat.toDigitsCore 10 fuel n ds = decDigits n ++ ds := by
  induction fuel with
  | zero => intro n ds h; omega
  | succ f ih =>
    intro n ds h
    rw [Nat.toDigitsCore, decDigits]
    by_cases h0 : n / 10 = 0
    · simp [h0]
    · have hf : n / 10 < f := by omega
      simp only [h0, if_false, dif_neg]
      rw [ih (n / 10) (Nat.digitChar (n % 10) :: ds) hf]
      simp

theorem decodeDigits_decDigits (n : Nat) : decodeDigits (decDigits n) = n := by
  induction n using Nat.strong_induction_on with
  | _ n ih =>
    rw [decDigits]
    by_cases h0 : n / 10 = 0
    · have hlt : n < 10 := by omega
      simp [h0, decodeDigits, digitVal_digitChar (n % 10) (by omega)]
      omega
    · have hn : 0 < n := by omega
      simp only [h0, dif_neg]
      have hrec := ih (n / 10) (Nat.div_lt_self hn (by omega))
      simp [decodeDigits, List.foldl_append] at hrec ⊢
      rw [hrec, digitVal_digitChar (n % 10) (by omega)]
      omega

theorem natRepr_injective (m n : Nat) (h : Nat.repr m = Nat.repr n) : m = n := by
  have hdata : Nat.toDigits 10 m = Nat.toDigits 10 n := congrArg String.data h
  have hm : Nat.toDigits 10 m = decDigits m := by
    simpa using toDigitsCore_eq_decDigits (m + 1) m [] (Nat.lt_succ_self m)
  have hn : Nat.toDigits 10 n = decDigits n := by
    simpa using toDigitsCore_eq_decDigits (n + 1) n [] (Nat.lt_succ_self n)
  rw [hm, hn] at hdata
  calc m = decodeDigits (decDigits m) := (decodeDigits_decDigits m).symm
    _ = decodeDigits (decDigits n) := by rw [hdata]
    _ = n := decodeDigits_decDigits n

theorem taskIDString_injective (m n : Nat) (h : taskIDString m = taskIDString n) :
    m = n := by
  apply natRepr_injective
  apply String.ext
  have h2 := congrArg String.data h
  simp only [taskIDString, String.data_append] at h2
  exact List.append_cancel_left h2

/-! ## Supporting lemmas -/

theorem selfMem_selfAndAncestors (c : Ctx) : c ∈ c.selfAndAncestors := by
  cases c <;> simp [Ctx.selfAndAncestors]

theorem sizeOf_le_of_mem_selfAndAncestors {a c : Ctx}
    (h : a ∈ c.selfAndAncestors) : sizeOf a ≤ sizeOf c := by
  induction c with
  | background =>
    simp [Ctx.selfAndAncestors] at h
    subst h
    exact Nat.le_refl _
  | withCancel p i ih =>
    simp only [Ctx.selfAndAncestors, List.mem_cons] at h
    rcases h with h | h
    · subst h; exact Nat.le_refl _
    · have := ih h
      simp only [Ctx.withCancel.sizeOf_spec]
      omega
  | withTimeout p d i ih =>
    simp only [Ctx.selfAndAncestors, List.mem_cons] at h
    rcases h with h | h
    · subst h; exact Nat.le_refl _
    · have := ih h
      simp only [Ctx.withTimeout.sizeOf_spec]
      omega

theorem mem_AddNotProcessedTask (s : Store) (a x : String) :
    x ∈ (AddNotProcessedTask s a).storage ↔ x ∈ s.storage ∨ x = a := by
  by_cases ha : a ∈ s.storage
  · simp only [AddNotProcessedTask, if_pos ha]
    constructor
    · exact Or.inl
    · rintro (h | rfl)
      · exact h
      · exact ha
  · simp [AddNotProcessedTask, ha]

theorem nodup_AddNotProcessedTask (s : Store) (a : String)
    (h : s.storage.Nodup) : (AddNotProcessedTask s a).storage.Nodup := by
  by_cases ha : a ∈ s.storage
  · simpa [AddNotProcessedTask, ha] using h
  · simp [AddNotProcessedTask, ha, List.nodup_append, h]

theorem storeFold_mem (ids : List String) :
    ∀ (s : Store) (x : String),
      x ∈ (ids.foldl AddNotProcessedTask s).storage ↔ x ∈ s.storage ∨ x ∈ ids := by
  induction ids with
  | nil => intro s x; simp
  | cons a l ih =>
    intro s x
    rw [List.foldl_cons, ih, mem_AddNotProcessedTask]
    simp only [List.mem_cons]
    tauto

theorem storeFold_nodup (ids : List String) :
    ∀ s : Store, s.storage.Nodup → (ids.foldl AddNotProcessedTask s).storage.Nodup := by
  induction ids with
  | nil => intro s h; exact h
  | cons a l ih =>
    intro s h
    exact ih _ (nodup_AddNotProcessedTask s a h)

theorem moveNotProcessed_eq_storeFold (buffer : List Task) (st : Store) :
    moveNotProcessedTasksToPersistentQueue buffer st =
      (buffer.map Task.ID).foldl AddNotProcessedTask st := by
  rw [moveNotProcessedTasksToPersistentQueue, List.foldl_map]

/-! ## Claims -/

/-- C1 (counterexample): with the daemon started on the background context,
the per-task 3-second deadline context built by `processingWithTimeout`
(from `d.baseCtx`) is NOT a descendant of the context `Daemon.Stop` cancels
via `d.workerCancel` (the `WithCancel` child created in `Daemon.Start`), so
the shutdown-triggered cancellation does not fire the in-flight call's
`Done` signal. -/
theorem C1_counterexample :
    (taskDeadlineCtx Ctx.background 1).isDescendantOf
      (startWorkerCtx Ctx.background) = false := by
  decide

/-- C1 (amended): the per-task 3-second deadline context is a descendant of
the daemon's base context `d.baseCtx`, but not of the worker-loop context
that `Daemon.Stop` cancels; the shutdown-triggered `workerCancel` therefore
does not propagate to any in-flight task's deadline context. -/
theorem C1_deadline_ctx_parent (baseCtx : Ctx) (taskIdx : Nat) :
    (taskDeadlineCtx baseCtx taskIdx).isDescendantOf baseCtx = true ∧
    (taskDeadlineCtx baseCtx taskIdx).isDescendantOf (startWorkerCtx baseCtx) = false := by
  constructor
  · simp only [taskDeadlineCtx, Ctx.isDescendantOf, Ctx.selfAndAncestors,
      decide_eq_true_eq, List.mem_cons]
    exact Or.inr (selfMem_selfAndAncestors baseCtx)
  · simp only [taskDeadlineCtx, startWorkerCtx, Ctx.isDescendantOf,
      Ctx.selfAndAncestors, decide_eq_false_iff_not, List.mem_cons]
    rintro (h | h)
    · exact Ctx.noConfusion h
    · have := sizeOf_le_of_mem_selfAndAncestors h
      simp only [Ctx.withCancel.sizeOf_spec] at this
      omega

/-- C2: after the queue is closed, the drain loop calls
`AddNotProcessedTask` exactly once for every task still buffered (the call
sequence is one call per buffered task), and each such task's identifier is
in the subsequent `GetAllNotProcessedTasks` result. -/
theorem C2_drain_complete (buffer : List Task) (st : Store) (t : Task)
    (hnd : (buffer.map Task.ID).Nodup) (ht : t ∈ buffer) :
    (drainCalls buffer).count t.ID = 1 ∧
    t.ID ∈ GetAllNotProcessedTasks (moveNotProcessedTasksToPersistentQueue buffer st) := by
  constructor
  · exact List.count_eq_one_of_mem hnd (List.mem_map_of_mem Task.ID ht)
  · rw [GetAllNotProcessedTasks, moveNotProcessed_eq_storeFold, storeFold_mem]
    exact Or.inr (List.mem_map_of_mem Task.ID ht)

/-- C2 witness: a concrete two-task drain. -/
theorem C2_drain_complete_witness :
    (drainCalls [⟨"task-1"⟩, ⟨"task-2"⟩]).count (Task.mk "task-1").ID = 1 ∧
    (Task.mk "task-1").ID ∈ GetAllNotProcessedTasks
      (moveNotProcessedTasksToPersistentQueue [⟨"task-1"⟩, ⟨"task-2"⟩] Store.empty) :=
  C2_drain_complete [⟨"task-1"⟩, ⟨"task-2"⟩] Store.empty ⟨"task-1"⟩
    (by decide) (by decide)

/-- C10: the store has set semantics — re-adding an identifier right after
adding it changes nothing (so recording is idempotent); starting from the
empty store, any sequence of `AddNotProcessedTask` calls yields a
`GetAllNotProcessedTasks` result without duplicates whose members are
exactly the identifiers ever recorded, regardless of order or repetition. -/
theorem C10_store_set_semantics (ops : List String) (s : Store) (x : String) :
    AddNotProcessedTask (AddNotProcessedTask s x) x = AddNotProcessedTask s x ∧
    (GetAllNotProcessedTasks (ops.foldl AddNotProcessedTask Store.empty)).Nodup ∧
    (x ∈ GetAllNotProcessedTasks (ops.foldl AddNotProcessedTask Store.empty) ↔ x ∈ ops) := by
  refine ⟨?_, ?_, ?_⟩
  · have hx : x ∈ (AddNotProcessedTask s x).storage :=
      (mem_AddNotProcessedTask s x x).2 (Or.inr rfl)
    rw [AddNotProcessedTask, if_pos hx]
  · exact storeFold_nodup ops Store.empty List.nodup_nil
  · rw [GetAllNotProcessedTasks, storeFold_mem]
    simp [Store.empty]

/-- C7 (counterexample): a submission arriving while the daemon is shutting
down does NOT increment the unavailable-response counter — the
shutting-down branch of `SubmitTask` returns before any metrics call. -/
theorem C7_counterexample :
    ¬ ((SubmitTask ⟨true, 0, TaskQueue.new 2, Recorder.init⟩).2.recorder.unavailableTotal =
        (HandlerState.mk true 0 (TaskQueue.new 2) Recorder.init).recorder.unavailableTotal + 1) := by
  decide

/-- C7 (amended): while the daemon is shutting down, `SubmitTask` responds
"unavailable" immediately and leaves the whole handler state unchanged: no
task identity is allocated (the task counter is untouched) and no metric —
including the unavailable-response counter — is incremented. -/
theorem C7_shutdown_rejection (s : HandlerState) (h : s.isShuttingDown = true) :
    (SubmitTask s).1 = SubmitResponse.unavailable ∧ (SubmitTask s).2 = s := by
  simp [SubmitTask, h]

/-- C7 witness: the amended claim at a concrete shutting-down state. -/
theorem C7_shutdown_rejection_witness :
    (SubmitTask ⟨true, 5, TaskQueue.new 3, Recorder.init⟩).1 = SubmitResponse.unavailable ∧
    (SubmitTask ⟨true, 5, TaskQueue.new 3, Recorder.init⟩).2 =
      ⟨true, 5, TaskQueue.new 3, Recorder.init⟩ :=
  C7_shutdown_rejection ⟨true, 5, TaskQueue.new 3, Recorder.init⟩ rfl

theorem counterAfterCalls_eq (n : Nat) : counterAfterCalls n = n % 2 ^ 64 := by
  induction n with
  | zero => rfl
  | succ n ih =>
    rw [counterAfterCalls, ih]
    omega

/-- C8: task identities come from one wrapping `uint64` counter; as long as
the wraparound bound is not reached, a later `NewTaskID` call embeds a
strictly larger counter value than an earlier one, and the two calls return
different identifier strings (call indices are 0-based; call `n` embeds the
counter value `counterAfterCalls (n + 1)`). -/
theorem C8_task_ids_monotone_unique (i j : Nat) (hij : i < j) (hj : j + 1 < 2 ^ 64) :
    counterAfterCalls (i + 1) < counterAfterCalls (j + 1) ∧
    callTaskID i ≠ callTaskID j := by
  have hi := counterAfterCalls_eq (i + 1)
  have hj2 := counterAfterCalls_eq (j + 1)
  constructor
  · rw [hi, hj2]
    omega
  · intro h
    simp only [callTaskID, NewTaskID] at h
    have heq := taskIDString_injective _ _ h
    rw [counterAfterCalls_eq, counterAfterCalls_eq] at heq
    omega

/-- C8 witness: the first two calls. -/
theorem C8_task_ids_monotone_unique_witness :
    counterAfterCalls 1 < counterAfterCalls 2 ∧ callTaskID 0 ≠ callTaskID 1 :=
  C8_task_ids_monotone_unique 0 1 (by omega) (by norm_num)

theorem workerHandleTask_activeTasks (r : Recorder) (res : APIResult) :
    (workerHandleTask r res).activeTasks = r.activeTasks := by
  cases res <;>
    simp [workerHandleTask, processingWithTimeout, recordAPIResult,
      APIResult.isError, APIResult.isCustomError, APIResult.isDeadlineExceeded,
      APIResult.isCanceled, Recorder.AddActiveTasks, Recorder.DecActiveTasks,
      Recorder.ObserveTaskDuration, Recorder.IncSubmittedTasksTotal,
      Recorder.IncTaskError, Recorder.IncTaskTimeout]

theorem foldl_workerHandleTask_activeTasks (results : List APIResult) :
    ∀ r : Recorder, (results.foldl workerHandleTask r).activeTasks = r.activeTasks := by
  induction results with
  | nil => intro r; rfl
  | cons a l ih =>
    intro r
    rw [List.foldl_cons, ih, workerHandleTask_activeTasks]

/-- C9: processing one task increments the active-task gauge once before
the capability call and decrements it once on the exit path, whatever the
outcome, together with exactly one duration observation — so each handled
task leaves the gauge unchanged, and after any sequence of completed tasks
starting from a fresh recorder the gauge reads zero. -/
theorem C9_active_gauge (r : Recorder) (res : APIResult) (results : List APIResult) :
    (workerHandleTask r res).activeTasks = r.activeTasks ∧
    (workerHandleTask r res).taskDurationObservations = r.taskDurationObservations + 1 ∧
    (results.foldl workerHandleTask Recorder.init).activeTasks = 0 := by
  refine ⟨workerHandleTask_activeTasks r res, ?_, ?_⟩
  · cases res <;>
      simp [workerHandleTask, processingWithTimeout, recordAPIResult,
        APIResult.isError, APIResult.isCustomError, APIResult.isDeadlineExceeded,
        APIResult.isCanceled, Recorder.AddActiveTasks, Recorder.DecActiveTasks,
        Recorder.ObserveTaskDuration, Recorder.IncSubmittedTasksTotal,
        Recorder.IncTaskError, Recorder.IncTaskTimeout]
  · rw [foldl_workerHandleTask_activeTasks]
    rfl

/-- C4: each capability result is classified into exactly one terminal
outcome updating exactly the corresponding counter — success bumps only the
submitted counter, a business (`CustomError`) failure only the task-error
counter, a deadline-exceeded result only the timeout counter, and a
cancelled result (shutdown) also only the timeout counter; and the worker
removes the task from the queue and never re-inserts it, whatever the
outcome. -/
theorem C4_outcome_classification (r : Recorder) (msg : String) (cap : Nat)
    (t : Task) (rest : List Task) (resultOf : Task → APIResult) :
    ((workerHandleTask r .success).submittedTasksTotal = r.submittedTasksTotal + 1 ∧
      (workerHandleTask r .success).taskErrorsTotal = r.taskErrorsTotal ∧
      (workerHandleTask r .success).timeoutsTotal = r.timeoutsTotal ∧
      (workerHandleTask r .success).unavailableTotal = r.unavailableTotal) ∧
    ((workerHandleTask r (.customError msg)).taskErrorsTotal = r.taskErrorsTotal + 1 ∧
      (workerHandleTask r (.customError msg)).submittedTasksTotal = r.submittedTasksTotal ∧
      (workerHandleTask r (.customError msg)).timeoutsTotal = r.timeoutsTotal ∧
      (workerHandleTask r (.customError msg)).unavailableTotal = r.unavailableTotal) ∧
    ((workerHandleTask r .deadlineExceeded).timeoutsTotal = r.timeoutsTotal + 1 ∧
      (workerHandleTask r .deadlineExceeded).submittedTasksTotal = r.submittedTasksTotal ∧
      (workerHandleTask r .deadlineExceeded).taskErrorsTotal = r.taskErrorsTotal ∧
      (workerHandleTask r .deadlineExceeded).unavailableTotal = r.unavailableTotal) ∧
    ((workerHandleTask r .canceled).timeoutsTotal = r.timeoutsTotal + 1 ∧
      (workerHandleTask r .canceled).submittedTasksTotal = r.submittedTasksTotal ∧
      (workerHandleTask r .canceled).taskErrorsTotal = r.taskErrorsTotal ∧
      (workerHandleTask r .canceled).unavailableTotal = r.unavailableTotal) ∧
    workerStep ⟨⟨cap, t :: rest⟩, r⟩ resultOf =
      some ⟨⟨cap, rest⟩, workerHandleTask r (resultOf t)⟩ := by
  refine ⟨?_, ?_, ?_, ?_, rfl⟩ <;>
    simp [workerHandleTask, processingWithTimeout, recordAPIResult,
      APIResult.isError, APIResult.isCustomError, APIResult.isDeadlineExceeded,
      APIResult.isCanceled, Recorder.AddActiveTasks, Recorder.DecActiveTasks,
      Recorder.ObserveTaskDuration, Recorder.IncSubmittedTasksTotal,
      Recorder.IncTaskError, Recorder.IncTaskTimeout]

/-- C5: `Daemon.Stop` performs its phases strictly in order — cancel the
workers' context, close the queue, forward each still-buffered task to the
store, run the bounded join (logging a forced exit when the bound elapses
first), then emit the final accounting, which happens in both join
outcomes; the store gains exactly the identifiers that were still buffered,
so tasks whose completion was not observed are not recorded. -/
theorem C5_shutdown_sequence (buffer : List Task) (st : Store) (joinWithinBound : Bool) :
    (DaemonStop buffer st joinWithinBound).events.take 2 =
      [StopEvent.cancelWorkers, StopEvent.closeQueue] ∧
    ((DaemonStop buffer st joinWithinBound).events.drop 2).take buffer.length =
      buffer.map (fun t => StopEvent.persistTask t.ID) ∧
    (DaemonStop buffer st joinWithinBound).events.drop (2 + buffer.length) =
      [if joinWithinBound then StopEvent.waitJoinedInTime else StopEvent.forceExitLog,
        StopEvent.finalAccounting] ∧
    (DaemonStop buffer st joinWithinBound).events.length = buffer.length + 4 ∧
    (∀ x, x ∈ (DaemonStop buffer st joinWithinBound).store.storage ↔
      x ∈ st.storage ∨ x ∈ buffer.map Task.ID) := by
  refine ⟨?_, ?_, ?_, ?_, ?_⟩
  · simp [DaemonStop]
  · simp only [DaemonStop, List.cons_append, List.nil_append, List.drop_succ_cons,
      List.drop_zero, List.append_assoc]
    rw [← List.length_map buffer (fun t => StopEvent.persistTask t.ID)]
    exact List.take_left _ _
  · rw [← List.drop_drop]
    simp only [DaemonStop, List.cons_append, List.nil_append, List.append_assoc,
      List.drop_succ_cons, List.drop_zero]
    exact List.drop_left' (List.length_map buffer (fun t => StopEvent.persistTask t.ID))
  · simp [DaemonStop]
  · intro x
    simp only [DaemonStop]
    rw [moveNotProcessed_eq_storeFold, storeFold_mem]

/-- C6: the admission handler's decision is immediate and a pure function
of the current state — the request is accepted exactly when the daemon is
not shutting down and the queue is below capacity, in which case the single
enqueue attempt appends the freshly allocated task; otherwise the queue is
left untouched (there is no wait for space or worker progress). -/
theorem C6_admission_immediate (s : HandlerState) :
    ((SubmitTask s).1 = SubmitResponse.accepted ↔
      s.isShuttingDown = false ∧ s.queue.buffer.length < s.queue.capacity) ∧
    (SubmitTask s).2.queue.buffer =
      (if s.isShuttingDown = false ∧ s.queue.buffer.length < s.queue.capacity
        then s.queue.buffer ++ [⟨(NewTaskID s.taskCounter).1⟩]
        else s.queue.buffer) := by
  by_cases hsd : s.isShuttingDown
  · simp [SubmitTask, hsd]
  · by_cases hlt : s.queue.buffer.length < s.queue.capacity <;>
      simp [SubmitTask, TaskQueue.trySend, hsd, hlt]

theorem stepOp_inv (K : Nat) (s : HandlerState) (op : QueueOp)
    (h1 : s.isShuttingDown = false) (h2 : s.queue.capacity = K)
    (h3 : s.queue.buffer.length ≤ K) :
    (stepOp s op).isShuttingDown = false ∧ (stepOp s op).queue.capacity = K ∧
      (stepOp s op).queue.buffer.length ≤ K := by
  obtain ⟨sd, tc, ⟨cap, buf⟩, r⟩ := s
  simp only at h1 h2 h3
  subst h1 h2
  cases op with
  | submit =>
    by_cases hlt : buf.length < cap <;>
      simp [stepOp, SubmitTask, TaskQueue.trySend, hlt] <;> omega
  | dequeue =>
    cases buf with
    | nil => simp [stepOp, TaskQueue.receive, h3]
    | cons t rest =>
      simp only [stepOp, TaskQueue.receive] at h3 ⊢
      simp at h3 ⊢
      omega

theorem foldl_stepOp_inv (K : Nat) (ops : List QueueOp) :
    ∀ s : HandlerState, s.isShuttingDown = false → s.queue.capacity = K →
      s.queue.buffer.length ≤ K →
      (ops.foldl stepOp s).isShuttingDown = false ∧
        (ops.foldl stepOp s).queue.capacity = K ∧
        (ops.foldl stepOp s).queue.buffer.length ≤ K := by
  induction ops with
  | nil => intro s h1 h2 h3; exact ⟨h1, h2, h3⟩
  | cons op l ih =>
    intro s h1 h2 h3
    obtain ⟨g1, g2, g3⟩ := stepOp_inv K s op h1 h2 h3
    exact ih _ g1 g2 g3

/-- C3: over every sequence of admission attempts and dequeues starting
from a fresh daemon with queue capacity `K`, the queue never holds more
than `K` tasks, and the next admission attempt is accepted exactly when the
queue is below `K` (so while it holds `K` tasks every attempt is rejected
until a dequeue); concretely, with capacity 2 and no dequeues, three
admissions yield accepted, accepted, unavailable. -/
theorem C3_bounded_queue (K : Nat) (ops : List QueueOp) :
    (ops.foldl stepOp (initState K)).queue.buffer.length ≤ K ∧
    (SubmitTask (ops.foldl stepOp (initState K))).1 =
      (if (ops.foldl stepOp (initState K)).queue.buffer.length < K
        then SubmitResponse.accepted else SubmitResponse.unavailable) ∧
    submitResponses (initState 2) 3 =
      [SubmitResponse.accepted, SubmitResponse.accepted, SubmitResponse.unavailable] := by
  obtain ⟨g1, g2, g3⟩ :=
    foldl_stepOp_inv K ops (initState K) rfl rfl (by simp [initState, TaskQueue.new])
  refine ⟨g3, ?_, ?_⟩
  · by_cases hlt : (ops.foldl stepOp (initState K)).queue.buffer.length < K <;>
      simp [SubmitTask, TaskQueue.trySend, g1, g2, hlt]
  · decide
